import Mathlib

set_option maxRecDepth 100000

/-!
Verification development for the notion-gitlab-sync reconciliation engine.

The JavaScript source is shallowly embedded: pure helpers become Lean
functions, the paginated fetch loops become fuel-indexed recursions over an
abstract server (page number to response page), the process-global id map
becomes an explicit lookup function built by a fold, and the awaited batch
execution becomes an explicit trace/result computation parametrised by which
operations fail.
-/

/-- Source model of a GitLab assignee: only the name field is read by the
program (filtering and display). -/
structure Assignee where
  name : String
deriving DecidableEq, Repr

/-- Source model of a GitLab issue, with the fields the program reads:
iid (project-local id), title, description, state, assignees, labels,
updated_at and web_url. -/
structure GitLabIssue where
  iid : Nat
  title : String
  description : String
  state : String
  assignees : List Assignee
  labels : List String
  updated_at : String
  web_url : String
deriving DecidableEq, Repr

/-- Fixed page size of the GitLab issue fetch loop (src/gitlab.js line 27:
let pageSize = 100). -/
def pageSize : Nat := 100

/-- Per-page assignee filter from src/gitlab.js lines 41-43:
data.filter(issue => issue.assignees.some(assignee => assignee.name === "Jan Strich")). -/
def matchesAssignee (issue : GitLabIssue) : Bool :=
  issue.assignees.any fun assignee => assignee.name == "Jan Strich"

/-- The do/while pagination loop of getGitLabIssuesForRepository
(src/gitlab.js lines 30-50).  The remote API is abstracted as a function
from page number to the returned page; fuel bounds the recursion (the JS
loop has no bound and can diverge on a server that always answers full
pages, which the fuel models as none).  The result carries the accumulated
filtered issues together with the number of requests made. -/
def issuesLoop (server : Nat → List GitLabIssue) :
    Nat → Nat → List GitLabIssue → Nat → Option (List GitLabIssue × Nat)
  | 0, _, _, _ => none
  | fuel + 1, page, issues, requests =>
    let data := server page
    let filteredData := data.filter matchesAssignee
    let issues := issues ++ filteredData
    let lastPageSize := data.length
    if lastPageSize == pageSize then
      issuesLoop server fuel (page + 1) issues (requests + 1)
    else
      some (issues, requests + 1)

/-- Embedding of getGitLabIssuesForRepository (src/gitlab.js lines 22-53):
start at page 1 with an empty accumulator; returns the filtered issues and
the request count. -/
def getGitLabIssuesForRepository (server : Nat → List GitLabIssue) (fuel : Nat) :
    Option (List GitLabIssue × Nat) :=
  issuesLoop server fuel 1 [] 0

/-- An issue assigned to the filtered-for name, used to build concrete
server responses in scenarios. -/
def janIssue (k : Nat) : GitLabIssue :=
  { iid := k, title := "t", description := "d", state := "opened",
    assignees := [{ name := "Jan Strich" }], labels := [], updated_at := "",
    web_url := "u" }

/-- An issue assigned to nobody of interest: it never passes the filter. -/
def otherIssue (k : Nat) : GitLabIssue :=
  { iid := k, title := "t", description := "d", state := "opened",
    assignees := [{ name := "Somebody Else" }], labels := [], updated_at := "",
    web_url := "u" }

/-- A response page of n issues that all match the assignee filter. -/
def mkPage (n : Nat) : List GitLabIssue :=
  (List.range n).map janIssue

/-- A response page of n issues none of which matches the assignee filter. -/
def mkOtherPage (n : Nat) : List GitLabIssue :=
  (List.range n).map otherIssue

/-- Scenario server answering pages of sizes 100, 100, 37 (then empty). -/
def server237 : Nat → List GitLabIssue :=
  fun p => if p = 1 then mkPage 100 else if p = 2 then mkPage 100 else
    if p = 3 then mkPage 37 else []

/-- Scenario server answering pages of sizes 100, 100, 0 (then empty). -/
def server200 : Nat → List GitLabIssue :=
  fun p => if p = 1 then mkPage 100 else if p = 2 then mkPage 100 else []

/-- Scenario server whose first page is full but matches nobody. -/
def serverNoMatch : Nat → List GitLabIssue :=
  fun p => if p = 1 then mkOtherPage 100 else []

/-- Scenario server whose first page is short and fully matching. -/
def serverShortMatch : Nat → List GitLabIssue :=
  fun p => if p = 1 then mkPage 37 else []

/-- Scenario server with the same page lengths as serverShortMatch but with
no matching item at all. -/
def serverShortOther : Nat → List GitLabIssue :=
  fun p => if p = 1 then mkOtherPage 37 else []

/-- Server that always answers an empty page. -/
def serverEmpty : Nat → List GitLabIssue :=
  fun _ => []

/-- Text annotation bag attached to every rich-text item the program writes
(src/gitlab.js lines 117-124). -/
structure TextAnnotations where
  bold : Bool
  italic : Bool
  strikethrough : Bool
  underline : Bool
  code : Bool
  color : String
deriving DecidableEq, Repr

/-- One rich-text segment as the program writes it.  The notes and
assignees segments carry no plain_text or href field, which is modelled by
none. -/
structure RichTextItem where
  content : String
  link : Option String
  annotations : TextAnnotations
  plain_text : Option String
  href : Option String
deriving DecidableEq, Repr

/-- The annotation values the program always uses (all flags false, color
"default"). -/
def defaultAnnotations : TextAnnotations :=
  { bold := false, italic := false, strikethrough := false, underline := false,
    code := false, color := "default" }

/-- The Notion property bag built for one issue, with one Lean field per JS
property of getPropertiesFromIssue: id, open (here open_checkbox, since open
is a Lean keyword), title, notes, assignees, last_updated_at, type_of_work
and tags. -/
structure NotionProps where
  id : List RichTextItem
  open_checkbox : Bool
  title : String
  notes : List RichTextItem
  assignees : List RichTextItem
  last_updated_at : String
  type_of_work : List String
  tags : List String
deriving DecidableEq, Repr

/-- Embedding of getPropertiesFromIssue (src/gitlab.js lines 104-190): the
field mapper from a GitLab issue to the Notion schema.  The id property is a
single rich-text segment with content and plain_text both "#" ++ iid and a
link to the issue url. -/
def getPropertiesFromIssue (issue : GitLabIssue) : NotionProps :=
  { id := [{ content := "#" ++ toString issue.iid,
             link := some issue.web_url,
             annotations := defaultAnnotations,
             plain_text := some ("#" ++ toString issue.iid),
             href := some issue.web_url }],
    open_checkbox := issue.state == "opened",
    title := "G4KMU: " ++ issue.title,
    notes := [{ content := issue.description, link := none,
                annotations := defaultAnnotations, plain_text := none,
                href := none }],
    assignees := [{ content := String.intercalate ", " (issue.assignees.map (·.name)),
                    link := none, annotations := defaultAnnotations,
                    plain_text := none, href := none }],
    last_updated_at := issue.updated_at,
    type_of_work := ["Programming"],
    tags := issue.labels }

/-- The identity text read back by the Destination Lister from a property
bag: the first rich-text segment's plain text with its first character
removed (src/unnamed/part_000 line 119:
page.properties.id.rich_text[0].plain_text.slice(1)). -/
def readIdentityText (props : NotionProps) : Option String :=
  (props.id.head?.bind (·.plain_text)).map (·.drop 1)

/-- The identity read back as an integer, as the spec describes the parser:
the text after the one-character prefix interpreted as a natural number. -/
def parseIdentity (props : NotionProps) : Option Nat :=
  (readIdentityText props).bind String.toNat?

/-- One rich-text segment as fetched back from Notion: plain_text is some s
when the segment carries a string plain text, and none when that field is
absent or not a string (calling .slice(1) on it would then throw). -/
structure ReadRichTextItem where
  plain_text : Option String
deriving DecidableEq, Repr

/-- The id property of a fetched Notion page: rich_text is some list when
the property carries a rich-text array, and none when it does not (indexing
[0] into it would then throw). -/
structure ReadIdProp where
  rich_text : Option (List ReadRichTextItem)
deriving DecidableEq, Repr

/-- A page fetched from the Notion database: its page id and its property
named id; idProp is none when the page has no such property (reading .id on
page.properties["id"] then throws outside any try block). -/
structure NotionPage where
  id : String
  idProp : Option ReadIdProp
deriving DecidableEq, Repr

/-- The body of the try block of getIssuesFromNotionDatabase
(src/unnamed/part_000 lines 116-123): produce the (pageId, issueNumber)
record, where issueNumber is the first rich-text segment's plain text with
its first character sliced off; none models a thrown-and-caught TypeError
(missing rich-text array, empty array, or missing or non-string plain
text).  A present string plain text is used verbatim and never parsed as an
integer. -/
def extractIssue (page : NotionPage) (prop : ReadIdProp) : Option (String × String) :=
  match prop.rich_text with
  | none => none
  | some items =>
    match items.head? with
    | none => none
    | some item =>
      match item.plain_text with
      | none => none
      | some s => some (page.id, s.drop 1)

/-- The per-page extraction loop of getIssuesFromNotionDatabase
(src/unnamed/part_000 lines 107-126), taking the already-fetched page list.
The access page.properties["id"].id on line 109 happens before the try
block, so a page without an id property throws outside the catch and the
whole listing fails (none); a failure inside the try block only skips the
page (after logging "oops") and the loop continues. -/
def getIssuesFromNotionDatabase : List NotionPage → Option (List (String × String))
  | [] => some []
  | page :: rest =>
    match page.idProp with
    | none => none
    | some prop =>
      match extractIssue page prop, getIssuesFromNotionDatabase rest with
      | _, none => none
      | none, some issues => some issues
      | some e, some issues => some (e :: issues)

/-- Embedding of the process-global map gitLabIssuesIdToNotionPageId as
built by setInitialGitLabToNotionIdMap (src/unnamed/part_000 lines 45-50):
starting from the empty object, each fetched (pageId, issueNumber) record
assigns map[issueNumber] = pageId in list order, so a later record with the
same issueNumber silently overwrites an earlier one. -/
def setInitialGitLabToNotionIdMap (currentIssues : List (String × String)) :
    String → Option String :=
  currentIssues.foldl
    (fun m r => fun key => if key = r.2 then some r.1 else m key)
    (fun _ => none)

/-- JS truthiness of a looked-up page id: an absent key (undefined) and the
empty string are falsy, every other string is truthy. -/
def truthyPageId : Option String → Bool
  | none => false
  | some s => !(s == "")

/-- Embedding of getNotionOperations (src/unnamed/part_000 lines 138-153):
each issue is looked up in the id map under its iid (JS object keys are
strings, so the key is the decimal rendering of the number); the branch
if (pageId) sends the issue with the found page id to pagesToUpdate when the
looked-up value is truthy, and the issue alone to pagesToCreate otherwise,
both in input order. -/
def getNotionOperations (index : String → Option String) :
    List GitLabIssue → List GitLabIssue × List (String × GitLabIssue)
  | [] => ([], [])
  | issue :: rest =>
    let ops := getNotionOperations index rest
    match index (toString issue.iid) with
    | some pageId =>
      if pageId == "" then (issue :: ops.1, ops.2)
      else (ops.1, (pageId, issue) :: ops.2)
    | none => (issue :: ops.1, ops.2)

/-- The fixed batch size (src/unnamed/part_000 line 28:
const OPERATION_BATCH_SIZE = 10). -/
def OPERATION_BATCH_SIZE : Nat := 10

/-- Structural engine behind the chunk helper: every step takes a block of
n elements and recurses on the rest; the fuel (instantiated with the list
length, an upper bound on the number of blocks) only makes the recursion
structural so that it evaluates inside the kernel. -/
def chunkFuel {α : Type} (n : Nat) : Nat → List α → List (List α)
  | 0, _ => []
  | _ + 1, [] => []
  | fuel + 1, x :: xs => (x :: xs).take n :: chunkFuel n fuel ((x :: xs).drop n)

/-- Embedding of the lodash _.chunk helper: contiguous blocks of size n in
input order (the last block may be shorter); a block size of zero yields no
blocks, as in lodash.  The equation chunk n l = l.take n :: chunk n (l.drop n)
for nonempty l and positive n is proved below (chunk_cons). -/
def chunk {α : Type} (n : Nat) (l : List α) : List (List α) :=
  match n with
  | 0 => []
  | _ + 1 => chunkFuel n l.length l

/-- Execution model of the batch loop shared by createPages and updatePages
(src/unnamed/part_000 lines 162-175 and 184-197).  Each batch first starts
all of its operations (the .map over the batch creates every promise before
Promise.all is awaited), so every operation of a batch is issued even when a
sibling of it fails; then await Promise.all rejects iff some operation of
the batch failed, and the rejection propagates, so later batches are never
started.  The result records the operations issued, in order, and whether
the loop ran to completion. -/
def runBatches {α : Type} (fails : α → Bool) : List (List α) → List α × Bool
  | [] => ([], true)
  | batch :: rest =>
    if batch.any fails then (batch, false)
    else
      let r := runBatches fails rest
      (batch ++ r.1, r.2)

/-- Embedding of createPages (src/unnamed/part_000 lines 162-175): chunk
the create work list into batches of OPERATION_BATCH_SIZE and run them in
sequence; fails says which individual notion.pages.create calls reject. -/
def createPages (fails : GitLabIssue → Bool) (pagesToCreate : List GitLabIssue) :
    List GitLabIssue × Bool :=
  runBatches fails (chunk OPERATION_BATCH_SIZE pagesToCreate)

/-- Embedding of updatePages (src/unnamed/part_000 lines 184-197), the same
batch loop over (pageId, issue) work items. -/
def updatePages (fails : String × GitLabIssue → Bool)
    (pagesToUpdate : List (String × GitLabIssue)) :
    List (String × GitLabIssue) × Bool :=
  runBatches fails (chunk OPERATION_BATCH_SIZE pagesToUpdate)

/-- Source model of a GitLab label: only the name is read. -/
structure GitLabLabel where
  name : String
deriving DecidableEq, Repr

/-- The fixed color palette (src/unnamed/part_000 lines 199-210). -/
def availableColors : List String :=
  ["blue", "brown", "default", "gray", "green", "orange", "pink", "purple",
   "red", "yellow"]

/-- The indexed map underlying updateMultiSelectOptions:
labels.map((l, i) => ({ name: l.name, color: palette[i % palette.length] }))
written as a recursion carrying the running index i. -/
def optionsFrom (palette : List String) : Nat → List GitLabLabel → List (String × String)
  | _, [] => []
  | i, l :: ls =>
    (l.name, palette.getD (i % palette.length) "") :: optionsFrom palette (i + 1) ls

/-- The option list for a label list over a given palette, starting the
position count at zero. -/
def multiSelectOptionsWith (palette : List String) (labels : List GitLabLabel) :
    List (String × String) :=
  optionsFrom palette 0 labels

/-- Embedding of updateMultiSelectOptions (src/unnamed/part_000 lines
218-232): the new option set written wholesale into the tags property of the
database schema, colored over the fixed availableColors palette. -/
def updateMultiSelectOptions (labels : List GitLabLabel) : List (String × String) :=
  multiSelectOptionsWith availableColors labels

/-- One awaited effect of the top-level run, in program order. -/
inductive SyncEvent
  | buildIndex
  | fetchIssues
  | fetchLabels
  | taxonomySync
  | classify
  | createPage (issue : GitLabIssue)
  | updatePage (pageId : String) (issue : GitLabIssue)
deriving DecidableEq, Repr

/-- Pipeline stage number of an event. -/
def phase : SyncEvent → Nat
  | .buildIndex => 0
  | .fetchIssues => 1
  | .fetchLabels => 2
  | .taxonomySync => 3
  | .classify => 4
  | .createPage _ => 5
  | .updatePage _ _ => 6

/-- An event that writes a record to the destination. -/
def isWrite : SyncEvent → Bool
  | .createPage _ => true
  | .updatePage _ _ => true
  | _ => false

/-- A create write. -/
def isCreate : SyncEvent → Bool
  | .createPage _ => true
  | _ => false

/-- An update write. -/
def isUpdate : SyncEvent → Bool
  | .updatePage _ _ => true
  | _ => false

/-- The write-back tail of the run: all issued creates (createPages), then,
only if every create batch settled successfully, all issued updates
(updatePages); a create failure rejects through the awaits and the update
stage is never entered. -/
def writesTrace (index : String → Option String) (issues : List GitLabIssue)
    (createFails : GitLabIssue → Bool) (updateFails : String × GitLabIssue → Bool) :
    List SyncEvent :=
  let ops := getNotionOperations index issues
  let created := createPages createFails ops.1
  created.1.map SyncEvent.createPage ++
    (if created.2 then
      (updatePages updateFails ops.2).1.map fun u => SyncEvent.updatePage u.1 u.2
    else [])

/-- Trace of awaited effects of syncNotionDatabaseWithGitLab
(src/unnamed/part_000 lines 52-78), one event per awaited stage in the
order the awaits are chained: fetch issues, fetch labels, taxonomy sync via
updateMultiSelectOptions, synchronous classification, then the writes.  A
failing stage rejects and truncates everything after its event. -/
def syncNotionDatabaseWithGitLabTrace (index : String → Option String)
    (issues : List GitLabIssue) (fetchIssuesOk fetchLabelsOk taxOk : Bool)
    (createFails : GitLabIssue → Bool) (updateFails : String × GitLabIssue → Bool) :
    List SyncEvent :=
  SyncEvent.fetchIssues ::
    (if fetchIssuesOk then
      SyncEvent.fetchLabels ::
        (if fetchLabelsOk then
          SyncEvent.taxonomySync ::
            (if taxOk then
              SyncEvent.classify :: writesTrace index issues createFails updateFails
            else [])
        else [])
    else [])

/-- Trace of the whole process (src/unnamed/part_000 line 40:
setInitialGitLabToNotionIdMap().then(syncNotionDatabaseWithGitLab)): the
index build always runs first and the sync only runs when it succeeded,
with the index the map built from the fetched records. -/
def mainTrace (records : List (String × String)) (indexOk : Bool)
    (issues : List GitLabIssue) (fetchIssuesOk fetchLabelsOk taxOk : Bool)
    (createFails : GitLabIssue → Bool) (updateFails : String × GitLabIssue → Bool) :
    List SyncEvent :=
  SyncEvent.buildIndex ::
    (if indexOk then
      syncNotionDatabaseWithGitLabTrace (setInitialGitLabToNotionIdMap records)
        issues fetchIssuesOk fetchLabelsOk taxOk createFails updateFails
    else [])

/-- Concrete page whose id property text is "#banana": present, a string,
but not numeric after the prefix. -/
def bananaPage : NotionPage :=
  { id := "p1", idProp := some { rich_text := some [{ plain_text := some "#banana" }] } }

/-- Concrete page with no property named id at all. -/
def missingPropPage : NotionPage :=
  { id := "p2", idProp := none }

/-- Concrete page with a well-formed numeric identity. -/
def numericPage : NotionPage :=
  { id := "p3", idProp := some { rich_text := some [{ plain_text := some "#7" }] } }

/-- Concrete 23-element work list, issues with iids 1 to 23. -/
def items23 : List GitLabIssue :=
  (List.range' 1 23).map janIssue

/-!
Theorems.  Claim theorems are interleaved with the helper lemmas they build
on; every claim theorem names its claim in the doc comment.
-/

/-- When the loop entered with requests made so far and current page
requests + 1 terminates with final request count n, then every page strictly
before page n was answered full (length exactly pageSize) and page n was the
first page whose length differs from pageSize. -/
theorem issuesLoop_stop (server : Nat → List GitLabIssue) :
    ∀ fuel requests issues out n,
      issuesLoop server fuel (requests + 1) issues requests = some (out, n) →
      requests < n ∧
      (∀ k, requests + 1 ≤ k → k < n → (server k).length = pageSize) ∧
      (server n).length ≠ pageSize := by
  intro fuel
  induction fuel with
  | zero =>
    intro requests issues out n h
    simp [issuesLoop] at h
  | succ fuel ih =>
    intro requests issues out n h
    simp only [issuesLoop] at h
    by_cases hfull : (server (requests + 1)).length = pageSize
    · simp only [hfull, beq_self_eq_true, if_true] at h
      have h2 := ih (requests + 1) _ out n h
      refine ⟨by omega, ?_, h2.2.2⟩
      intro k hk1 hk2
      rcases Nat.eq_or_lt_of_le hk1 with heq | hlt
      · rw [← heq]; exact hfull
      · exact h2.2.1 k hlt hk2
    · have hne : ((server (requests + 1)).length == pageSize) = false :=
        beq_false_of_ne hfull
      simp only [hne, Bool.false_eq_true, if_false, Option.some_inj,
        Prod.mk.injEq] at h
      obtain ⟨-, hn⟩ := h
      subst hn
      exact ⟨Nat.lt_succ_self _, fun k hk1 hk2 => absurd (Nat.lt_of_le_of_lt hk1 hk2)
        (Nat.lt_irrefl _), hfull⟩

/-- The loop's control decisions (request count and termination) depend only
on the length of each server page, not on its contents. -/
theorem issuesLoop_length_invariant (s1 s2 : Nat → List GitLabIssue)
    (hlen : ∀ p, (s1 p).length = (s2 p).length) :
    ∀ fuel page issues1 issues2 requests,
      (issuesLoop s1 fuel page issues1 requests).map Prod.snd =
      (issuesLoop s2 fuel page issues2 requests).map Prod.snd := by
  intro fuel
  induction fuel with
  | zero => intro page issues1 issues2 requests; simp [issuesLoop]
  | succ fuel ih =>
    intro page issues1 issues2 requests
    simp only [issuesLoop]
    rw [hlen page]
    by_cases hfull : (s2 page).length = pageSize
    · simp only [hfull, beq_self_eq_true, if_true]
      exact ih (page + 1) _ _ (requests + 1)
    · have hne : ((s2 page).length == pageSize) = false := beq_false_of_ne hfull
      simp [hne]

/-- C2: the Source Lister requests pages of fixed size 100 starting at page
1 and (for a server that honours the requested page size, i.e. never answers
more than 100 items) stops exactly when a response page is strictly shorter
than 100: all pages before the last requested one are full and the last one
is short.  Concretely, for pages of sizes [100, 100, 37] it makes exactly 3
requests and returns 237 items, and for pages [100, 100, 0] it makes exactly
3 requests and returns 200 items: a full final page never short-circuits, so
one extra empty-page request is made. -/
theorem sourceLister_pagination_termination :
    (∀ server fuel out n, (∀ p, (server p).length ≤ pageSize) →
      getGitLabIssuesForRepository server fuel = some (out, n) →
      1 ≤ n ∧ (∀ k, 1 ≤ k → k < n → (server k).length = pageSize) ∧
        (server n).length < pageSize) ∧
    (getGitLabIssuesForRepository server237 10).map (fun r => (r.1.length, r.2)) =
      some (237, 3) ∧
    (getGitLabIssuesForRepository server200 10).map (fun r => (r.1.length, r.2)) =
      some (200, 3) := by
  refine ⟨?_, by decide, by decide⟩
  intro server fuel out n hbound hrun
  have h := issuesLoop_stop server fuel 0 [] out n hrun
  exact ⟨h.1, h.2.1, Nat.lt_of_le_of_ne (hbound n) h.2.2⟩

/-- Witness for C2: the general conjunct applied to the concrete server that
always answers an empty page, which makes exactly one request. -/
theorem sourceLister_pagination_termination_witness :
    getGitLabIssuesForRepository serverEmpty 5 = some ([], 1) ∧
    (serverEmpty 1).length < pageSize := by
  have h := sourceLister_pagination_termination.1 serverEmpty 5 [] 1
    (fun p => by simp [serverEmpty, pageSize]) (by decide)
  exact ⟨by decide, h.2.2⟩

/-- C9: the termination decision of the Source Lister uses the unfiltered
length of each response page: two servers answering pages of equal lengths
produce identical request counts whatever their contents; a full page of 100
items none of which matches the assignee filter contributes nothing to the
output yet still triggers a request for the next page (2 requests, empty
result); and a short page ends pagination even when every item on it
matched (1 request, 37 results). -/
theorem sourceLister_unfiltered_length_decides :
    (∀ s1 s2 fuel, (∀ p, (s1 p).length = (s2 p).length) →
      (getGitLabIssuesForRepository s1 fuel).map Prod.snd =
        (getGitLabIssuesForRepository s2 fuel).map Prod.snd) ∧
    getGitLabIssuesForRepository serverNoMatch 10 = some ([], 2) ∧
    (getGitLabIssuesForRepository serverShortMatch 10).map
      (fun r => (r.1.length, r.2)) = some (37, 1) := by
  refine ⟨?_, by decide, by decide⟩
  intro s1 s2 fuel hlen
  exact issuesLoop_length_invariant s1 s2 hlen fuel 1 [] [] 0

/-- Witness for C9: the general conjunct applied to two concrete servers
with equal page lengths but disjoint contents. -/
theorem sourceLister_unfiltered_length_decides_witness :
    (getGitLabIssuesForRepository serverShortMatch 10).map Prod.snd =
      (getGitLabIssuesForRepository serverShortOther 10).map Prod.snd :=
  sourceLister_unfiltered_length_decides.1 serverShortMatch serverShortOther 10
    (fun p => by
      by_cases hp : p = 1 <;>
        simp [serverShortMatch, serverShortOther, mkPage, mkOtherPage, hp])

/-- Accumulator-append property of the digit emitter underlying Nat.repr. -/
theorem toDigitsCore_eq_append (b : Nat) :
    ∀ fuel n ds, Nat.toDigitsCore b fuel n ds = Nat.toDigitsCore b fuel n [] ++ ds := by
  intro fuel
  induction fuel with
  | zero => intro n ds; simp [Nat.toDigitsCore]
  | succ fuel ih =>
    intro n ds
    simp only [Nat.toDigitsCore]
    by_cases h : n / b = 0
    · simp [h]
    · simp only [h, if_false]
      rw [ih (n / b) (Nat.digitChar (n % b) :: ds), ih (n / b) [Nat.digitChar (n % b)],
        List.append_assoc]
      rfl

/-- With enough fuel the digit emitter does not depend on the exact fuel. -/
theorem toDigitsCore_fuel_irrel :
    ∀ fuel fuel' n : Nat, n < fuel → n < fuel' →
      Nat.toDigitsCore 10 fuel n [] = Nat.toDigitsCore 10 fuel' n [] := by
  intro fuel
  induction fuel with
  | zero => intro fuel' n h; omega
  | succ fuel ih =>
    intro fuel' n h h'
    cases fuel' with
    | zero => omega
    | succ fuel' =>
      simp only [Nat.toDigitsCore]
      by_cases hz : n / 10 = 0
      · simp [hz]
      · simp only [hz, if_false]
        rw [toDigitsCore_eq_append 10 fuel, toDigitsCore_eq_append 10 fuel']
        have hlt : n / 10 < n := Nat.div_lt_self (by omega) (by omega)
        rw [ih fuel' (n / 10) (by omega) (by omega)]

/-- Decimal digits of a one-digit number. -/
theorem toDigits_of_lt_ten (n : Nat) (h : n < 10) :
    Nat.toDigits 10 n = [Nat.digitChar n] := by
  have hz : n / 10 = 0 := Nat.div_eq_of_lt h
  have hm : n % 10 = n := Nat.mod_eq_of_lt h
  simp [Nat.toDigits, Nat.toDigitsCore, hz, hm]

/-- Decimal digits of a number of at least two digits: the digits of n / 10
followed by the final digit. -/
theorem toDigits_step (n : Nat) (h : 10 ≤ n) :
    Nat.toDigits 10 n = Nat.toDigits 10 (n / 10) ++ [Nat.digitChar (n % 10)] := by
  have hz : n / 10 ≠ 0 := by
    have h10 : 1 ≤ n / 10 := (Nat.le_div_iff_mul_le (by omega)).mpr (by omega)
    omega
  show Nat.toDigitsCore 10 (n + 1) n [] = _
  simp only [Nat.toDigitsCore, hz, if_false]
  rw [toDigitsCore_eq_append 10 n]
  have hlt : n / 10 < n := Nat.div_lt_self (by omega) (by omega)
  rw [toDigitsCore_fuel_irrel n (n / 10 + 1) (n / 10) hlt (Nat.lt_succ_self _)]
  rfl

/-- The digit characters emitted for values below ten are decimal digits and
decode back to their value (48 is the code of the zero digit). -/
theorem digitChar_spec (d : Nat) (h : d < 10) :
    (Nat.digitChar d).isDigit = true ∧ (Nat.digitChar d).toNat - 48 = d := by
  interval_cases d <;> exact ⟨by decide, by decide⟩

/-- Every character of a decimal representation is a digit and the
representation is never empty. -/
theorem toDigits_digits (n : Nat) :
    Nat.toDigits 10 n ≠ [] ∧ ∀ c ∈ Nat.toDigits 10 n, c.isDigit = true := by
  induction n using Nat.strong_induction_on with
  | _ n ih =>
    by_cases h : n < 10
    · rw [toDigits_of_lt_ten n h]
      exact ⟨by simp, by simpa using (digitChar_spec n h).1⟩
    · rw [toDigits_step n (by omega)]
      have hlt : n / 10 < n := Nat.div_lt_self (by omega) (by omega)
      refine ⟨by simp, ?_⟩
      intro c hc
      rcases List.mem_append.mp hc with hc | hc
      · exact (ih (n / 10) hlt).2 c hc
      · have : c = Nat.digitChar (n % 10) := by simpa using hc
        rw [this]
        exact (digitChar_spec (n % 10) (Nat.mod_lt _ (by omega))).1

/-- Folding the decimal decoder over the decimal representation recovers the
number. -/
theorem foldl_toDigits (n : Nat) :
    List.foldl (fun m c => m * 10 + (c.toNat - '0'.toNat)) 0 (Nat.toDigits 10 n) = n := by
  induction n using Nat.strong_induction_on with
  | _ n ih =>
    have h0 : '0'.toNat = 48 := rfl
    by_cases h : n < 10
    · rw [toDigits_of_lt_ten n h]
      simp only [List.foldl_cons, List.foldl_nil, h0]
      have := (digitChar_spec n h).2
      omega
    · rw [toDigits_step n (by omega), List.foldl_append]
      have hlt : n / 10 < n := Nat.div_lt_self (by omega) (by omega)
      rw [ih (n / 10) hlt]
      simp only [List.foldl_cons, List.foldl_nil, h0]
      have := (digitChar_spec (n % 10) (Nat.mod_lt _ (by omega))).2
      omega

/-- Reading the decimal representation of a natural number back as a natural
number recovers it. -/
theorem toNat?_repr (n : Nat) : (Nat.repr n).toNat? = some n := by
  have hdata : (Nat.repr n).data = Nat.toDigits 10 n := rfl
  have hnat : (Nat.repr n).isNat = true := by
    have hne : (Nat.repr n) ≠ "" := by
      intro hc
      have := congrArg String.data hc
      rw [hdata] at this
      exact (toDigits_digits n).1 this
    have hemp : (Nat.repr n).isEmpty = false := by
      rw [Bool.eq_false_iff]
      intro hc
      exact hne ((String.isEmpty_iff _).mp hc)
    have hall : (Nat.repr n).all Char.isDigit = true := by
      rw [String.all_iff, hdata]
      exact (toDigits_digits n).2
    simp [String.isNat, hemp, hall]
  rw [String.toNat?, if_pos hnat, String.foldl_eq, hdata, foldl_toDigits]

/-- Dropping one character from a string prefixed with the hash character
yields the original string. -/
theorem drop_one_hash (s : String) : ("#" ++ s).drop 1 = s := by
  rw [String.drop_eq]
  have : ("#" ++ s).data = '#' :: s.data := by
    rw [String.data_append]
    rfl
  rw [this]
  rfl

/-- C3: identity round-trip.  For every localId in [1, 10000], the rendered
identity property has its plain text equal to its display text, and
re-reading it through the Destination Lister's parser (first rich-text
segment's plain text, one-character prefix removed, read as an integer)
recovers the original localId. -/
theorem identity_roundtrip (n : Nat) (h1 : 1 ≤ n) (h2 : n ≤ 10000)
    (issue : GitLabIssue) (hiid : issue.iid = n) :
    parseIdentity (getPropertiesFromIssue issue) = some n ∧
    ∀ item ∈ (getPropertiesFromIssue issue).id, item.plain_text = some item.content := by
  constructor
  · have hred : parseIdentity (getPropertiesFromIssue issue) =
        String.toNat? (("#" ++ toString issue.iid).drop 1) := rfl
    rw [hred, hiid, drop_one_hash]
    exact toNat?_repr n
  · intro item hitem
    simp only [getPropertiesFromIssue, List.mem_singleton] at hitem
    rw [hitem]

/-- Witness for C3: the round-trip at localId 42. -/
theorem identity_roundtrip_witness :
    1 ≤ 42 ∧ 42 ≤ 10000 ∧
    parseIdentity (getPropertiesFromIssue (janIssue 42)) = some 42 :=
  ⟨by decide, by decide,
    (identity_roundtrip 42 (by decide) (by decide) (janIssue 42) rfl).1⟩

/-- The chunk engine is fuel-insensitive once the fuel covers the list
length. -/
theorem chunkFuel_fuel_irrel {α : Type} (n : Nat) (hn : n ≠ 0) :
    ∀ fuel fuel' (l : List α), l.length ≤ fuel → l.length ≤ fuel' →
      chunkFuel n fuel l = chunkFuel n fuel' l := by
  intro fuel
  induction fuel with
  | zero =>
    intro fuel' l h h'
    have hl : l = [] := List.length_eq_zero.mp (Nat.le_zero.mp h)
    subst hl
    cases fuel' <;> rfl
  | succ fuel ih =>
    intro fuel' l h h'
    cases l with
    | nil => cases fuel' <;> rfl
    | cons x xs =>
      cases fuel' with
      | zero => simp at h'
      | succ fuel' =>
        simp only [chunkFuel, List.cons.injEq, true_and]
        apply ih fuel'
        · simp only [List.length_drop, List.length_cons]
          simp only [List.length_cons] at h
          omega
        · simp only [List.length_drop, List.length_cons]
          simp only [List.length_cons] at h'
          omega

/-- The chunk of an empty list is empty. -/
theorem chunk_nil {α : Type} (n : Nat) : chunk n ([] : List α) = [] := by
  cases n <;> rfl

/-- The defining equation of lodash chunking for a nonempty list and a
positive block size: the first block is the first n elements and the rest is
the chunking of what remains. -/
theorem chunk_cons {α : Type} (n : Nat) (hn : n ≠ 0) (x : α) (xs : List α) :
    chunk n (x :: xs) = (x :: xs).take n :: chunk n ((x :: xs).drop n) := by
  obtain ⟨m, rfl⟩ : ∃ m, n = m + 1 := ⟨n - 1, by omega⟩
  show chunkFuel (m + 1) (xs.length + 1) (x :: xs) = _
  simp only [chunkFuel, List.cons.injEq, true_and]
  show _ = chunk (m + 1) ((x :: xs).drop (m + 1))
  have hd : (x :: xs).drop (m + 1) = xs.drop m := List.drop_succ_cons ..
  rw [hd]
  show _ = chunkFuel (m + 1) (xs.drop m).length (xs.drop m)
  apply chunkFuel_fuel_irrel _ (by omega)
  · simp only [List.length_drop]; omega
  · exact Nat.le_refl _

/-- Concatenating the blocks of a chunking recovers the original list. -/
theorem chunk_flatten {α : Type} (n : Nat) (hn : n ≠ 0) (l : List α) :
    (chunk n l).flatten = l := by
  suffices h : ∀ len (l : List α), l.length = len → (chunk n l).flatten = l from
    h l.length l rfl
  intro len
  induction len using Nat.strong_induction_on with
  | _ len ih =>
    intro l hlen
    cases l with
    | nil => rw [chunk_nil]; rfl
    | cons x xs =>
      rw [chunk_cons n hn x xs, List.flatten_cons]
      rw [ih ((x :: xs).drop n).length ?_ _ rfl]
      · exact List.take_append_drop n (x :: xs)
      · subst hlen
        simp only [List.length_drop, List.length_cons]
        omega

/-- Every block of a chunking is nonempty and no longer than the block
size. -/
theorem chunk_block_sizes {α : Type} (n : Nat) (hn : n ≠ 0) (l : List α) :
    ∀ b ∈ chunk n l, b ≠ [] ∧ b.length ≤ n := by
  suffices h : ∀ len (l : List α), l.length = len → ∀ b ∈ chunk n l, b ≠ [] ∧ b.length ≤ n
    from h l.length l rfl
  intro len
  induction len using Nat.strong_induction_on with
  | _ len ih =>
    intro l hlen
    cases l with
    | nil => rw [chunk_nil]; intro b hb; cases hb
    | cons x xs =>
      rw [chunk_cons n hn x xs]
      intro b hb
      rcases List.mem_cons.mp hb with hb | hb
      · subst hb
        constructor
        · intro hc
          have := congrArg List.length hc
          simp only [List.length_take, List.length_cons, List.length_nil] at this
          omega
        · simp [List.length_take]
      · refine ih ((x :: xs).drop n).length ?_ _ rfl b hb
        subst hlen
        simp only [List.length_drop, List.length_cons]
        omega

/-- The string banana does not read as a natural number. -/
theorem toNat?_banana : String.toNat? "banana" = none := by
  have hnat : "banana".isNat = false := by
    have hall : "banana".all Char.isDigit = false := by
      rw [String.all_eq]
      decide
    simp [String.isNat, hall]
  rw [String.toNat?]
  simp [hnat]

/-- A concrete malformed page: the id property exists but its rich-text
array is empty, so reading element zero throws inside the try block. -/
def emptyRichTextPage : NotionPage :=
  { id := "p4", idProp := some { rich_text := some [] } }

/-- C6 counterexample: a destination record whose identity text after the
one-character prefix is banana, which does not parse as an integer, is not
skipped by the Destination Lister: it is returned and its non-numeric key
enters the Identity Index. -/
theorem destinationLister_skip_counterexample :
    String.toNat? "banana" = none ∧
    getIssuesFromNotionDatabase [bananaPage] = some [("p1", "banana")] ∧
    setInitialGitLabToNotionIdMap [("p1", "banana")] "banana" = some "p1" :=
  ⟨toNat?_banana, by decide, by decide⟩

/-- When every page has an id property, the listing succeeds and returns
exactly the records whose extraction does not throw, in page order. -/
theorem getIssuesFromNotionDatabase_skips (pages : List NotionPage)
    (hprop : ∀ p ∈ pages, p.idProp ≠ none) :
    getIssuesFromNotionDatabase pages =
      some (pages.filterMap fun p => p.idProp.bind (extractIssue p)) := by
  induction pages with
  | nil => rfl
  | cons p rest ih =>
    have hp : p.idProp ≠ none := hprop p (List.mem_cons_self p rest)
    have hrest := ih fun q hq => hprop q (List.mem_cons_of_mem p hq)
    cases hidp : p.idProp with
    | none => exact absurd hidp hp
    | some prop =>
      simp only [getIssuesFromNotionDatabase, hidp, hrest, List.filterMap_cons,
        Option.some_bind]
      cases extractIssue p prop <;> rfl

/-- A page without an id property makes the whole listing fail: the read of
page.properties["id"].id throws outside the try block. -/
theorem getIssuesFromNotionDatabase_aborts (pages : List NotionPage)
    (page : NotionPage) (hmem : page ∈ pages) (hnone : page.idProp = none) :
    getIssuesFromNotionDatabase pages = none := by
  induction pages with
  | nil => cases hmem
  | cons p rest ih =>
    rcases List.mem_cons.mp hmem with rfl | hmem'
    · simp [getIssuesFromNotionDatabase, hnone]
    · cases hp : p.idProp with
      | none => simp [getIssuesFromNotionDatabase, hp]
      | some prop =>
        have hrest := ih hmem'
        simp only [getIssuesFromNotionDatabase, hp, hrest]

/-- C6 amended: a record whose id property is present but whose rich-text
contents are malformed (no array, empty array, or missing or non-string
plain text) is skipped: it is excluded from the output feeding the Identity
Index, the failure is logged, and the listing continues.  The plain text is
however never parsed as an integer, so a record with a present string plain
text is always kept, with everything after the one-character prefix as its
key, even when that text is not numeric; and a record with no id property at
all makes the whole listing fail instead of being skipped. -/
theorem destinationLister_skip_amended :
    (∀ pages : List NotionPage, (∀ p ∈ pages, p.idProp ≠ none) →
      getIssuesFromNotionDatabase pages =
        some (pages.filterMap fun p => p.idProp.bind (extractIssue p))) ∧
    (∀ (pages : List NotionPage) (page : NotionPage), page ∈ pages →
      page.idProp = none → getIssuesFromNotionDatabase pages = none) ∧
    getIssuesFromNotionDatabase [emptyRichTextPage, numericPage] =
      some [("p3", "7")] ∧
    getIssuesFromNotionDatabase [bananaPage, numericPage] =
      some [("p1", "banana"), ("p3", "7")] ∧
    getIssuesFromNotionDatabase [numericPage, missingPropPage] = none :=
  ⟨getIssuesFromNotionDatabase_skips, getIssuesFromNotionDatabase_aborts,
    by decide, by decide, by decide⟩

/-- Witness for C6 amended: the two quantified conjuncts applied to concrete
page lists. -/
theorem destinationLister_skip_amended_witness :
    getIssuesFromNotionDatabase [numericPage] = some [("p3", "7")] ∧
    getIssuesFromNotionDatabase [missingPropPage] = none := by
  constructor
  · have h := destinationLister_skip_amended.1 [numericPage]
      (by intro p hp; simp only [List.mem_singleton] at hp; subst hp; simp [numericPage])
    rw [h]
    decide
  · exact destinationLister_skip_amended.2.1 [missingPropPage] missingPropPage
      (List.mem_singleton.mpr rfl) rfl

/-- Folding the id-map assignments over the fetched records looks a key up
as the last record carrying it, whatever map the fold started from. -/
theorem setInitialMap_foldl (records : List (String × String)) :
    ∀ (m : String → Option String) (key : String),
      (records.foldl (fun m r => fun k => if k = r.2 then some r.1 else m k) m) key =
        match records.reverse.find? (fun r => r.2 == key) with
        | some r => some r.1
        | none => m key := by
  induction records with
  | nil => intro m key; rfl
  | cons r rs ih =>
    intro m key
    simp only [List.foldl_cons, List.reverse_cons, List.find?_append]
    rw [ih]
    cases hfind : rs.reverse.find? (fun x => x.2 == key) with
    | some x => simp [Option.or]
    | none =>
      simp only [Option.none_or]
      by_cases hk : r.2 = key
      · have hbeq : (r.2 == key) = true := beq_iff_eq.mpr hk
        simp [List.find?, hbeq, hk.symm]
      · have hbeq : (r.2 == key) = false := beq_false_of_ne hk
        have hk' : ¬(key = r.2) := fun hc => hk hc.symm
        simp [List.find?, hbeq, hk']

/-- Every entry of the update work list carries exactly the page id the
index holds for that issue's iid at classification time. -/
theorem update_pageId_eq_lookup (index : String → Option String) :
    ∀ (issues : List GitLabIssue) (pid : String) (iss : GitLabIssue),
      (pid, iss) ∈ (getNotionOperations index issues).2 →
      index (toString iss.iid) = some pid := by
  intro issues
  induction issues with
  | nil => intro pid iss h; cases h
  | cons issue rest ih =>
    intro pid iss h
    simp only [getNotionOperations] at h
    cases hidx : index (toString issue.iid) with
    | none =>
      rw [hidx] at h
      exact ih pid iss h
    | some p =>
      rw [hidx] at h
      cases hp : (p == "") with
      | true =>
        simp only [hp, if_true] at h
        exact ih pid iss h
      | false =>
        simp only [hp, Bool.false_eq_true, if_false] at h
        rcases List.mem_cons.mp h with heq | hmem
        · rw [Prod.mk.injEq] at heq
          obtain ⟨rfl, rfl⟩ := heq
          exact hidx
        · exact ih pid iss hmem


/-- C10: when several destination records carry the same embedded localId,
the Identity Index maps that localId to the handle of the record appearing
later in the Destination Lister's output (the lookup equals the first hit in
the reversed record list), every update operation targets exactly the
looked-up handle, and hence an overwritten earlier handle is never targeted
by any update.  Concretely, for two records pA and pB both carrying key 7,
the index holds pB and the update for issue 7 targets pB. -/
theorem identityIndex_last_wins :
    (∀ (records : List (String × String)) (key : String),
      setInitialGitLabToNotionIdMap records key =
        (records.reverse.find? fun r => r.2 == key).map Prod.fst) ∧
    (∀ (records : List (String × String)) (issues : List GitLabIssue)
        (pid : String) (iss : GitLabIssue),
      (pid, iss) ∈ (getNotionOperations (setInitialGitLabToNotionIdMap records) issues).2 →
      setInitialGitLabToNotionIdMap records (toString iss.iid) = some pid) ∧
    setInitialGitLabToNotionIdMap [("pA", "7"), ("pB", "7")] "7" = some "pB" ∧
    getNotionOperations (setInitialGitLabToNotionIdMap [("pA", "7"), ("pB", "7")])
      [janIssue 7] = ([], [("pB", janIssue 7)]) := by
  refine ⟨?_, ?_, by decide, by decide⟩
  · intro records key
    rw [setInitialGitLabToNotionIdMap, setInitialMap_foldl records _ key]
    cases records.reverse.find? (fun r => r.2 == key) <;> rfl
  · intro records issues pid iss h
    exact update_pageId_eq_lookup (setInitialGitLabToNotionIdMap records) issues pid iss h

/-- Witness for C10: the quantified conjuncts applied to the concrete
duplicate scenario. -/
theorem identityIndex_last_wins_witness :
    setInitialGitLabToNotionIdMap [("pA", "7"), ("pB", "7")]
      (toString (janIssue 7).iid) = some "pB" :=
  identityIndex_last_wins.2.1 [("pA", "7"), ("pB", "7")] [janIssue 7] "pB" (janIssue 7)
    (by decide)

/-- The two work lists of the Reconciler are the two complementary filters
of the input by truthiness of the index lookup, updates paired with the
looked-up page id. -/
theorem getNotionOperations_eq_filter (index : String → Option String) :
    ∀ issues : List GitLabIssue,
      (getNotionOperations index issues).1 =
        issues.filter (fun i => !truthyPageId (index (toString i.iid))) ∧
      (getNotionOperations index issues).2 =
        (issues.filter fun i => truthyPageId (index (toString i.iid))).map
          fun i => ((index (toString i.iid)).getD "", i) := by
  intro issues
  induction issues with
  | nil => exact ⟨rfl, rfl⟩
  | cons issue rest ih =>
    simp only [getNotionOperations, List.filter_cons]
    cases hidx : index (toString issue.iid) with
    | none =>
      simp only [truthyPageId, Bool.not_false, if_true, List.map_cons]
      exact ⟨by rw [List.cons.injEq]; exact ⟨rfl, ih.1⟩, ih.2⟩
    | some p =>
      cases hp : (p == "") with
      | true =>
        have hpt : truthyPageId (some p) = false := by
          simp [truthyPageId, hp]
        simp only [hp, if_true, hpt, Bool.not_false, if_true,
          Bool.false_eq_true, if_false]
        exact ⟨by rw [List.cons.injEq]; exact ⟨rfl, ih.1⟩, ih.2⟩
      | false =>
        have hpt : truthyPageId (some p) = true := by
          simp [truthyPageId, hp]
        simp only [hp, Bool.false_eq_true, if_false, hpt, Bool.not_true, if_true,
          List.map_cons, hidx, Option.getD_some]
        exact ⟨ih.1, by rw [List.cons.injEq]; exact ⟨rfl, ih.2⟩⟩

/-- Splitting a list by a Boolean predicate preserves the total length. -/
theorem length_filter_add_length_filter_not {α : Type} (p : α → Bool) (l : List α) :
    (l.filter p).length + (l.filter fun a => !p a).length = l.length := by
  induction l with
  | nil => rfl
  | cons a l ih =>
    simp only [List.filter_cons]
    cases hpa : p a <;> simp [hpa, List.length_cons] <;> omega

/-- C4 counterexample: an Identity Index that does contain the item's
localId (it was built from a record whose page id is the empty string)
nevertheless sends the item to the create list and leaves the update list
empty, because the JS truthiness test if (pageId) treats the empty string as
absent. -/
theorem reconciler_partition_counterexample :
    setInitialGitLabToNotionIdMap [("", "1")] (toString (janIssue 1).iid) = some "" ∧
    getNotionOperations (setInitialGitLabToNotionIdMap [("", "1")]) [janIssue 1] =
      ([janIssue 1], []) :=
  ⟨by decide, by decide⟩

/-- C4 amended: for every input sequence and every Identity Index the two
work lists partition the input: creates is the sublist of items whose lookup
is falsy, the items of updates are the sublist of items whose lookup is
truthy (a present but empty-string handle counting as absent), the two
lengths add up to the input length, and no item lies in both lists. -/
theorem reconciler_partition (index : String → Option String)
    (issues : List GitLabIssue) :
    (getNotionOperations index issues).1 =
      issues.filter (fun i => !truthyPageId (index (toString i.iid))) ∧
    (getNotionOperations index issues).2.map Prod.snd =
      issues.filter (fun i => truthyPageId (index (toString i.iid))) ∧
    (getNotionOperations index issues).1.length +
      (getNotionOperations index issues).2.length = issues.length ∧
    (getNotionOperations index issues).1.Disjoint
      ((getNotionOperations index issues).2.map Prod.snd) := by
  obtain ⟨h1, h2⟩ := getNotionOperations_eq_filter index issues
  have h2' : (getNotionOperations index issues).2.map Prod.snd =
      issues.filter fun i => truthyPageId (index (toString i.iid)) := by
    rw [h2, List.map_map]
    exact List.map_id _
  refine ⟨h1, h2', ?_, ?_⟩
  · have hlen : (getNotionOperations index issues).2.length =
        ((getNotionOperations index issues).2.map Prod.snd).length :=
      (List.length_map _ _).symm
    rw [h1, hlen, h2']
    rw [Nat.add_comm]
    have := length_filter_add_length_filter_not
      (fun i => truthyPageId (index (toString i.iid))) issues
    omega
  · intro a ha hb
    rw [h1] at ha
    rw [h2'] at hb
    have hfa := List.of_mem_filter ha
    have hfb := List.of_mem_filter hb
    rw [hfb] at hfa
    cases hfa

/-- C5: the order of items inside each Reconciler output list preserves the
relative order of the input sequence: the create list and the item
projection of the update list are both sublists of the input. -/
theorem reconciler_order (index : String → Option String)
    (issues : List GitLabIssue) :
    (getNotionOperations index issues).1.Sublist issues ∧
    ((getNotionOperations index issues).2.map Prod.snd).Sublist issues := by
  obtain ⟨h1, h2⟩ := getNotionOperations_eq_filter index issues
  constructor
  · rw [h1]
    exact List.filter_sublist issues
  · rw [h2, List.map_map]
    have : (getNotionOperations index issues).2.map Prod.snd =
        issues.filter fun i => truthyPageId (index (toString i.iid)) := by
      rw [h2, List.map_map]
      exact List.map_id _
    rw [← List.map_map, ← h2, this]
    exact List.filter_sublist issues

/-- When no operation fails, every batch settles successfully and the writer
issues all operations of all batches in order. -/
theorem runBatches_success {α : Type} (fails : α → Bool) :
    ∀ bs : List (List α), (∀ x ∈ bs.flatten, fails x = false) →
      runBatches fails bs = (bs.flatten, true) := by
  intro bs
  induction bs with
  | nil => intro h; rfl
  | cons b rest ih =>
    intro h
    have hb : b.any fails = false := by
      rw [List.any_eq_false]
      intro x hx hfx
      have := h x (List.mem_flatten.mpr ⟨b, List.mem_cons_self b rest, hx⟩)
      rw [this] at hfx
      cases hfx
    have hrest := ih fun x hx =>
      h x (by rw [List.flatten_cons]; exact List.mem_append_right b hx)
    simp only [runBatches, hb, Bool.false_eq_true, if_false, hrest,
      List.flatten_cons]

/-- When the batches before b all succeed and some operation of b fails, the
writer issues exactly the operations of the earlier batches and all of b
(the failing operation's siblings included), reports failure, and never
starts any batch after b. -/
theorem runBatches_fail {α : Type} (fails : α → Bool) :
    ∀ (bs1 : List (List α)) (b : List α) (bs2 : List (List α)),
      (∀ x ∈ bs1.flatten, fails x = false) → b.any fails = true →
      runBatches fails (bs1 ++ b :: bs2) = (bs1.flatten ++ b, false) := by
  intro bs1
  induction bs1 with
  | nil =>
    intro b bs2 hok hfail
    simp only [List.nil_append, runBatches, hfail, if_true, List.flatten_nil]
  | cons b1 bs1 ih =>
    intro b bs2 hok hfail
    have hb1 : b1.any fails = false := by
      rw [List.any_eq_false]
      intro x hx hfx
      have := hok x (List.mem_flatten.mpr ⟨b1, List.mem_cons_self b1 bs1, hx⟩)
      rw [this] at hfx
      cases hfx
    have hrest := ih b bs2
      (fun x hx => hok x (by rw [List.flatten_cons]; exact List.mem_append_right b1 hx))
      hfail
    simp only [List.cons_append, runBatches, hb1, Bool.false_eq_true, if_false,
      List.append_eq, hrest, List.flatten_cons, List.append_assoc]

/-- C1 counterexample: with 23 work items in batches of 10 and the 4th
operation of batch 2 (the 13th item) failing, the writer does issue all 10
operations of batch 2 but reports failure and never starts batch 3: items
21 to 23 are not issued, refuting that every subsequent batch executes. -/
theorem batchedWriter_counterexample :
    (chunk OPERATION_BATCH_SIZE items23).map List.length = [10, 10, 3] ∧
    createPages (fun i => i.iid == 13) items23 =
      ((List.range' 1 20).map janIssue, false) ∧
    janIssue 21 ∉ (createPages (fun i => i.iid == 13) items23).1 :=
  ⟨by decide, by decide, by decide⟩

/-- C1 amended: the writer partitions the work list into contiguous batches
of size 10 (every batch nonempty and of size at most 10, their concatenation
the work list; 23 items give batch sizes 10, 10, 3) and processes batches
strictly in sequence.  All operations of a batch are started together, so a
failing operation's siblings in its batch are still issued; but the await of
Promise.all then rejects, so the run stops after the failing batch: when
every earlier batch succeeded and batch b contains a failure, exactly the
earlier batches and all of b are issued and no later batch is started, and
only when every operation succeeds does the writer run every batch to
completion. -/
theorem batchedWriter_amended :
    (∀ l : List GitLabIssue, (chunk OPERATION_BATCH_SIZE l).flatten = l) ∧
    (∀ l : List GitLabIssue, ∀ b ∈ chunk OPERATION_BATCH_SIZE l,
      b ≠ [] ∧ b.length ≤ OPERATION_BATCH_SIZE) ∧
    (∀ (fails : GitLabIssue → Bool) (l : List GitLabIssue),
      (∀ x ∈ l, fails x = false) → createPages fails l = (l, true)) ∧
    (∀ (fails : GitLabIssue → Bool) (bs1 : List (List GitLabIssue))
        (b : List GitLabIssue) (bs2 : List (List GitLabIssue)),
      (∀ x ∈ bs1.flatten, fails x = false) → b.any fails = true →
      runBatches fails (bs1 ++ b :: bs2) = (bs1.flatten ++ b, false)) ∧
    (chunk OPERATION_BATCH_SIZE items23).map List.length = [10, 10, 3] ∧
    createPages (fun i => i.iid == 13) items23 =
      ((List.range' 1 20).map janIssue, false) := by
  refine ⟨?_, ?_, ?_, ?_, by decide, by decide⟩
  · intro l
    exact chunk_flatten OPERATION_BATCH_SIZE (by decide) l
  · intro l
    exact chunk_block_sizes OPERATION_BATCH_SIZE (by decide) l
  · intro fails l h
    rw [createPages, runBatches_success fails _ ?_ ,
      chunk_flatten OPERATION_BATCH_SIZE (by decide) l]
    intro x hx
    exact h x (by rw [chunk_flatten OPERATION_BATCH_SIZE (by decide) l] at hx; exact hx)
  · exact runBatches_fail

/-- Witness for C1 amended: the two quantified failure-policy conjuncts at
concrete inputs. -/
theorem batchedWriter_amended_witness :
    createPages (fun _ => false) [janIssue 1] = ([janIssue 1], true) ∧
    runBatches (fun i => i.iid == 13) [[janIssue 1], [janIssue 13], [janIssue 2]] =
      ([janIssue 1, janIssue 13], false) := by
  constructor
  · exact batchedWriter_amended.2.2.1 (fun _ => false) [janIssue 1]
      (fun x hx => rfl)
  · have h := batchedWriter_amended.2.2.2.1 (fun i => i.iid == 13)
      [[janIssue 1]] [janIssue 13] [[janIssue 2]] (by decide) (by decide)
    simpa using h

/-- Element i of the option list built from running index j is label i
paired with the palette color at position (j + i) modulo the palette size
(and absent exactly when i is out of range). -/
theorem optionsFrom_getElem? (palette : List String) :
    ∀ (labels : List GitLabLabel) (j i : Nat),
      (optionsFrom palette j labels)[i]? =
        (labels[i]?).map fun l => (l.name, palette.getD ((j + i) % palette.length) "") := by
  intro labels
  induction labels with
  | nil => intro j i; simp [optionsFrom]
  | cons l ls ih =>
    intro j i
    cases i with
    | zero => simp [optionsFrom]
    | succ i =>
      simp only [optionsFrom, List.getElem?_cons_succ]
      rw [ih (j + 1) i]
      have harith : j + 1 + i = j + (i + 1) := by omega
      rw [harith]

/-- C7: Taxonomy Sync assigns the label at position i the color
palette[i mod |palette|], keyed by position and not by label identity; over
the palette [red, green, blue], labels [a, b, c] receive red, green, blue in
order and a 4th label wraps around to red again; over the program's fixed
10-color palette, 3 labels receive its first three colors blue, brown,
default in order, and position 10 wraps back to blue. -/
theorem taxonomy_color_assignment :
    (∀ (palette : List String) (labels : List GitLabLabel) (i : Nat),
      (multiSelectOptionsWith palette labels)[i]? =
        (labels[i]?).map fun l => (l.name, palette.getD (i % palette.length) "")) ∧
    updateMultiSelectOptions = multiSelectOptionsWith availableColors ∧
    multiSelectOptionsWith ["red", "green", "blue"]
        [{ name := "a" }, { name := "b" }, { name := "c" }] =
      [("a", "red"), ("b", "green"), ("c", "blue")] ∧
    multiSelectOptionsWith ["red", "green", "blue"]
        [{ name := "a" }, { name := "b" }, { name := "c" }, { name := "d" }] =
      [("a", "red"), ("b", "green"), ("c", "blue"), ("d", "red")] ∧
    updateMultiSelectOptions [{ name := "a" }, { name := "b" }, { name := "c" }] =
      [("a", "blue"), ("b", "brown"), ("c", "default")] ∧
    (updateMultiSelectOptions ((List.range 11).map fun k =>
        { name := toString k }))[10]? = some ("10", "blue") := by
  refine ⟨?_, rfl, by decide, by decide, by decide, by decide⟩
  intro palette labels i
  have h := optionsFrom_getElem? palette labels 0 i
  rw [multiSelectOptionsWith, h, Nat.zero_add]

/-- Write events sit in the last two pipeline stages. -/
theorem isWrite_phase_ge (e : SyncEvent) (h : isWrite e = true) : 5 ≤ phase e := by
  cases e <;> simp_all [isWrite, phase]

/-- Create events have stage number 5. -/
theorem isCreate_phase (e : SyncEvent) (h : isCreate e = true) : phase e = 5 := by
  cases e <;> simp_all [isCreate, phase]

/-- Update events have stage number 6. -/
theorem isUpdate_phase (e : SyncEvent) (h : isUpdate e = true) : phase e = 6 := by
  cases e <;> simp_all [isUpdate, phase]

/-- Every event of the write-back tail is a write stage. -/
theorem writesTrace_phase_ge (index : String → Option String)
    (issues : List GitLabIssue) (cF : GitLabIssue → Bool)
    (uF : String × GitLabIssue → Bool) :
    ∀ e ∈ writesTrace index issues cF uF, 5 ≤ phase e := by
  intro e he
  simp only [writesTrace] at he
  rcases List.mem_append.mp he with he | he
  · obtain ⟨x, -, rfl⟩ := List.mem_map.mp he
    exact Nat.le_refl _
  · split at he
    · obtain ⟨x, -, rfl⟩ := List.mem_map.mp he
      exact Nat.le_succ 5
    · cases he

/-- The write-back tail is stage-monotone: all creates precede all
updates. -/
theorem writesTrace_pairwise (index : String → Option String)
    (issues : List GitLabIssue) (cF : GitLabIssue → Bool)
    (uF : String × GitLabIssue → Bool) :
    (writesTrace index issues cF uF).Pairwise fun a b => phase a ≤ phase b := by
  simp only [writesTrace]
  rw [List.pairwise_append]
  refine ⟨?_, ?_, ?_⟩
  · apply List.pairwise_of_forall_mem_list
    intro a ha b hb
    obtain ⟨x, -, rfl⟩ := List.mem_map.mp ha
    obtain ⟨y, -, rfl⟩ := List.mem_map.mp hb
    exact Nat.le_refl _
  · split
    · apply List.pairwise_of_forall_mem_list
      intro a ha b hb
      obtain ⟨x, -, rfl⟩ := List.mem_map.mp ha
      obtain ⟨y, -, rfl⟩ := List.mem_map.mp hb
      exact Nat.le_refl _
    · exact List.Pairwise.nil
  · intro a ha b hb
    obtain ⟨x, -, rfl⟩ := List.mem_map.mp ha
    split at hb
    · obtain ⟨y, -, rfl⟩ := List.mem_map.mp hb
      exact Nat.le_succ 5
    · cases hb

/-- Prepending an event whose stage is below a bound on a stage-monotone
trace keeps the trace stage-monotone and bounds it by the new head's
stage. -/
theorem pairwise_phase_cons (e : SyncEvent) (t : List SyncEvent) (c : Nat)
    (hec : phase e ≤ c) (ht : ∀ x ∈ t, c ≤ phase x)
    (hp : t.Pairwise fun a b => phase a ≤ phase b) :
    ((e :: t).Pairwise fun a b => phase a ≤ phase b) ∧
      ∀ x ∈ e :: t, phase e ≤ phase x := by
  constructor
  · exact List.pairwise_cons.mpr ⟨fun x hx => Nat.le_trans hec (ht x hx), hp⟩
  · intro x hx
    rcases List.mem_cons.mp hx with rfl | hx
    · exact Nat.le_refl _
    · exact Nat.le_trans hec (ht x hx)

/-- A conditionally-present trace segment keeps monotonicity and bounds. -/
theorem pairwise_phase_if (c : Bool) (t : List SyncEvent) (bound : Nat)
    (ht : ∀ x ∈ t, bound ≤ phase x)
    (hp : t.Pairwise fun a b => phase a ≤ phase b) :
    ((if c then t else []).Pairwise fun a b => phase a ≤ phase b) ∧
      ∀ x ∈ (if c then t else []), bound ≤ phase x := by
  cases c
  · simp
  · simpa using ⟨hp, ht⟩

/-- The whole run trace is stage-monotone. -/
theorem mainTrace_pairwise (records : List (String × String)) (indexOk : Bool)
    (issues : List GitLabIssue) (f1 f2 f3 : Bool) (cF : GitLabIssue → Bool)
    (uF : String × GitLabIssue → Bool) :
    (mainTrace records indexOk issues f1 f2 f3 cF uF).Pairwise
      fun a b => phase a ≤ phase b := by
  have hWge := writesTrace_phase_ge (setInitialGitLabToNotionIdMap records) issues cF uF
  have hWpw := writesTrace_pairwise (setInitialGitLabToNotionIdMap records) issues cF uF
  have h4 := pairwise_phase_cons SyncEvent.classify _ 5 (by decide) hWge hWpw
  have hi4 := pairwise_phase_if f3 _ 4 h4.2 h4.1
  have h3 := pairwise_phase_cons SyncEvent.taxonomySync _ 4 (by decide) hi4.2 hi4.1
  have hi3 := pairwise_phase_if f2 _ 3 h3.2 h3.1
  have h2 := pairwise_phase_cons SyncEvent.fetchLabels _ 3 (by decide) hi3.2 hi3.1
  have hi2 := pairwise_phase_if f1 _ 2 h2.2 h2.1
  have h1 := pairwise_phase_cons SyncEvent.fetchIssues _ 2 (by decide) hi2.2 hi2.1
  have hi1 := pairwise_phase_if indexOk _ 1 h1.2 h1.1
  have h0 := pairwise_phase_cons SyncEvent.buildIndex _ 1 (by decide) hi1.2 hi1.1
  simpa only [mainTrace, syncNotionDatabaseWithGitLabTrace] using h0.1

/-- In a stage-monotone trace, an event of strictly smaller stage sits at a
strictly smaller position. -/
theorem phase_lt_position {t : List SyncEvent}
    (hpw : t.Pairwise fun a b => phase a ≤ phase b)
    {i j : Nat} {e e' : SyncEvent} (hi : t[i]? = some e) (hj : t[j]? = some e')
    (hlt : phase e < phase e') : i < j := by
  rcases Nat.lt_trichotomy i j with h | h | h
  · exact h
  · subst h
    rw [hi] at hj
    injection hj with heq
    subst heq
    exact absurd hlt (Nat.lt_irrefl _)
  · exfalso
    obtain ⟨hilen, hie⟩ := List.getElem?_eq_some.mp hi
    obtain ⟨hjlen, hje⟩ := List.getElem?_eq_some.mp hj
    have hrel := List.pairwise_iff_get.mp hpw ⟨j, hjlen⟩ ⟨i, hilen⟩ h
    simp only [List.get_eq_getElem] at hrel
    rw [hie, hje] at hrel
    omega

/-- C8: in every run, the trace of awaited effects is stage-monotone
(index build, fetch issues, fetch labels, taxonomy sync, classify, creates,
updates, in that order, later stages cut off by earlier failures); in
particular the taxonomy sync event precedes every write event, and every
create event precedes every update event. -/
theorem run_stage_order (records : List (String × String)) (indexOk : Bool)
    (issues : List GitLabIssue) (fetchIssuesOk fetchLabelsOk taxOk : Bool)
    (createFails : GitLabIssue → Bool)
    (updateFails : String × GitLabIssue → Bool) :
    ((mainTrace records indexOk issues fetchIssuesOk fetchLabelsOk taxOk
        createFails updateFails).Pairwise fun a b => phase a ≤ phase b) ∧
    (∀ (i j : Nat) (e e' : SyncEvent),
      (mainTrace records indexOk issues fetchIssuesOk fetchLabelsOk taxOk
        createFails updateFails)[i]? = some e →
      (mainTrace records indexOk issues fetchIssuesOk fetchLabelsOk taxOk
        createFails updateFails)[j]? = some e' →
      e = SyncEvent.taxonomySync → isWrite e' = true → i < j) ∧
    (∀ (i j : Nat) (e e' : SyncEvent),
      (mainTrace records indexOk issues fetchIssuesOk fetchLabelsOk taxOk
        createFails updateFails)[i]? = some e →
      (mainTrace records indexOk issues fetchIssuesOk fetchLabelsOk taxOk
        createFails updateFails)[j]? = some e' →
      isCreate e = true → isUpdate e' = true → i < j) := by
  have hpw := mainTrace_pairwise records indexOk issues fetchIssuesOk fetchLabelsOk
    taxOk createFails updateFails
  refine ⟨hpw, ?_, ?_⟩
  · intro i j e e' hi hj htax hw
    refine phase_lt_position hpw hi hj ?_
    have h5 := isWrite_phase_ge e' hw
    rw [htax]
    have h3 : phase SyncEvent.taxonomySync = 3 := rfl
    omega
  · intro i j e e' hi hj hc hu
    refine phase_lt_position hpw hi hj ?_
    rw [isCreate_phase e hc, isUpdate_phase e' hu]
    omega

/-- Witness for C8: in a concrete full run with one create and one update,
taxonomy sync sits at position 3, before the create at position 5 and the
update at position 6. -/
theorem run_stage_order_witness :
    (mainTrace [("p1", "1")] true [janIssue 1, janIssue 2] true true true
      (fun _ => false) (fun _ => false))[3]? = some SyncEvent.taxonomySync ∧
    (3 : Nat) < 5 ∧ (5 : Nat) < 6 := by
  refine ⟨by decide, ?_, ?_⟩
  · exact (run_stage_order [("p1", "1")] true [janIssue 1, janIssue 2] true true true
      (fun _ => false) (fun _ => false)).2.1 3 5 SyncEvent.taxonomySync
      (SyncEvent.createPage (janIssue 2)) (by decide) (by decide) rfl (by decide)
  · exact (run_stage_order [("p1", "1")] true [janIssue 1, janIssue 2] true true true
      (fun _ => false) (fun _ => false)).2.2 5 6 (SyncEvent.createPage (janIssue 2))
      (SyncEvent.updatePage "p1" (janIssue 1)) (by decide) (by decide) (by decide)
      (by decide)

/-- Witness for C4 amended: the partition equations at a concrete index and
input. -/
theorem reconciler_partition_witness :
    (getNotionOperations (setInitialGitLabToNotionIdMap [("p1", "1")])
        [janIssue 1, janIssue 2]).1 =
      [janIssue 1, janIssue 2].filter
        (fun i => !truthyPageId
          (setInitialGitLabToNotionIdMap [("p1", "1")] (toString i.iid))) :=
  (reconciler_partition (setInitialGitLabToNotionIdMap [("p1", "1")])
    [janIssue 1, janIssue 2]).1

/-- Witness for C5: order preservation at a concrete index and input. -/
theorem reconciler_order_witness :
    (getNotionOperations (setInitialGitLabToNotionIdMap [("p1", "1")])
        [janIssue 1, janIssue 2]).1.Sublist [janIssue 1, janIssue 2] :=
  (reconciler_order (setInitialGitLabToNotionIdMap [("p1", "1")])
    [janIssue 1, janIssue 2]).1

/-- Witness for C7: the positional color formula at a concrete palette,
label list and position. -/
theorem taxonomy_color_assignment_witness :
    (multiSelectOptionsWith availableColors [{ name := "a" }])[0]? =
      (([{ name := "a" }] : List GitLabLabel)[0]?).map
        (fun l => (l.name, availableColors.getD (0 % availableColors.length) "")) :=
  taxonomy_color_assignment.1 availableColors [{ name := "a" }] 0
